import Mathlib

/-!
Shallow embedding of the Vulkan bootstrap logic of `src/main.cpp`
(HelloTriangleApplication), together with theorems settling the
specification claims about device selection, queue-family resolution,
logical-device queue setup, swapchain negotiation and layer validation.

Driver responses (enumerated devices, queue-family properties, surface
formats, present modes, capabilities, available layers and extensions)
are inputs of the embedded functions; uint32 values are modelled as
`Nat` with an explicit `% 2 ^ 32` where the source can overflow.
-/

namespace VulkanTemplate

/-- `std::numeric_limits<uint32_t>::max()`. -/
def UINT32_MAX : Nat := 2 ^ 32 - 1

/-- Vulkan enum value `VK_FORMAT_B8G8R8A8_SRGB` (= 50). -/
def VK_FORMAT_B8G8R8A8_SRGB : Nat := 50

/-- Vulkan enum value `VK_COLOR_SPACE_SRGB_NONLINEAR_KHR` (= 0). -/
def VK_COLOR_SPACE_SRGB_NONLINEAR_KHR : Nat := 0

/-- `const std::vector<const char *> validation_layers` of main.cpp. -/
def validation_layers : List String := ["VK_LAYER_KHRONOS_validation"]

/-- `const std::vector<const char *> device_extensions` of main.cpp
(`VK_KHR_SWAPCHAIN_EXTENSION_NAME`). -/
def device_extensions : List String := ["VK_KHR_swapchain"]

/-- `struct QueueFamilyIndices` of main.cpp: a pair of optional uint32
indices into a device's queue-family list. -/
structure QueueFamilyIndices where
  graphics_family : Option Nat
  present_family : Option Nat
deriving DecidableEq, Repr

/-- `QueueFamilyIndices::is_complete`: both indices are set. -/
def QueueFamilyIndices.is_complete (q : QueueFamilyIndices) : Bool :=
  q.graphics_family.isSome && q.present_family.isSome

/-- One entry of the queue-family property list of a device, as the two
driver queries of `find_queue_families` observe it: whether
`queueFlags & VK_QUEUE_GRAPHICS_BIT` is set, and whether
`vkGetPhysicalDeviceSurfaceSupportKHR` reports presentation support for
this family index on the bound surface. -/
structure QueueFamily where
  graphics : Bool
  present : Bool
deriving DecidableEq, Repr

/-- The loop of `find_queue_families` (main.cpp:515-530): walks the
family list with counter `i`, overwriting `indices.present_family` and
`indices.graphics_family` into the member state `ind`, and breaks as
soon as the indices are complete.  The member `indices` is NOT reset on
entry in the source; it is the `ind` argument here. -/
def fqfLoop (ind : QueueFamilyIndices) (i : Nat) :
    List QueueFamily → QueueFamilyIndices
  | [] => ind
  | qf :: rest =>
    let ind1 := if qf.present then { ind with present_family := some i } else ind
    let ind2 := if qf.graphics then { ind1 with graphics_family := some i } else ind1
    if ind2.is_complete then ind2 else fqfLoop ind2 (i + 1) rest

/-- `find_queue_families` (main.cpp:510-532).  `ind` is the value of the
member field `indices` on entry (the function writes into the member and
never clears it first); `families` is the queue-family property list the
driver reports for the candidate device. -/
def find_queue_families (ind : QueueFamilyIndices)
    (families : List QueueFamily) : QueueFamilyIndices :=
  fqfLoop ind 0 families

/-- `VkSurfaceFormatKHR`: a (format, colorSpace) pair of Vulkan enum
values. -/
structure SurfaceFormat where
  format : Nat
  colorSpace : Nat
deriving DecidableEq, Repr

/-- `VkExtent2D`. -/
structure Extent2D where
  width : Nat
  height : Nat
deriving DecidableEq, Repr

/-- The fields of `VkSurfaceCapabilitiesKHR` that main.cpp reads. -/
structure SurfaceCapabilities where
  minImageCount : Nat
  maxImageCount : Nat
  currentExtent : Extent2D
  minImageExtent : Extent2D
  maxImageExtent : Extent2D
deriving DecidableEq, Repr

/-- What the driver reports about one physical device for the queries
main.cpp performs against it: its queue-family properties (with the
per-index surface-support answers folded in), its available device
extensions, and the surface-capability / format / present-mode query
results for the bound surface. -/
structure PhysDevice where
  families : List QueueFamily
  availableExtensions : List String
  capabilities : SurfaceCapabilities
  driverFormats : List SurfaceFormat
  driverPresentModes : List Nat
deriving DecidableEq, Repr

/-- `struct SwapChainSupportDetails` of main.cpp. -/
structure SwapChainSupportDetails where
  capabilities : SurfaceCapabilities
  formats : List SurfaceFormat
  present_modes : List Nat
deriving DecidableEq, Repr

/-- `query_swap_chain_support` (main.cpp:534-555).  Note that the source
guards BOTH the format query and the present-mode query behind
`if (format_count > 0)`: when the driver reports zero surface formats,
`details.present_modes` is never resized or filled, regardless of the
reported present-mode count. -/
def query_swap_chain_support (d : PhysDevice) : SwapChainSupportDetails :=
  let format_count := d.driverFormats.length
  { capabilities := d.capabilities
    formats := if format_count > 0 then d.driverFormats else []
    present_modes := if format_count > 0 then d.driverPresentModes else [] }

/-- `check_device_extension_support` (main.cpp:451-464): build the set of
required extensions, erase every available one, succeed iff nothing is
left.  `List.removeAll` mirrors the erase loop. -/
def check_device_extension_support (d : PhysDevice) : Bool :=
  (device_extensions.removeAll d.availableExtensions).isEmpty

/-- `is_device_suitable` (main.cpp:433-449).  The function writes the
resolved queue families into the member `indices` (threaded here as the
`ind` argument and the second component of the result) and combines the
three checks exactly as the source does: the swapchain query is only
performed when the extension check passed, and an empty `formats` or
`present_modes` list causes an early `return false`. -/
def is_device_suitable (ind : QueueFamilyIndices) (d : PhysDevice) :
    Bool × QueueFamilyIndices :=
  let ind2 := find_queue_families ind d.families
  let extensions_support := check_device_extension_support d
  if extensions_support then
    let swap_chain_support := query_swap_chain_support d
    if swap_chain_support.formats.isEmpty ||
        swap_chain_support.present_modes.isEmpty then
      (false, ind2)
    else
      (ind2.is_complete && extensions_support, ind2)
  else
    (ind2.is_complete && extensions_support, ind2)

/-- The selection loop of `pick_physical_device` (main.cpp:127-132):
first device for which `is_device_suitable` returns true wins, with the
member `indices` threaded through the suitability calls. -/
def pickLoop (ind : QueueFamilyIndices) :
    List PhysDevice → Option PhysDevice × QueueFamilyIndices
  | [] => (none, ind)
  | d :: rest =>
    let r := is_device_suitable ind d
    if r.1 then (some d, r.2) else pickLoop r.2 rest

/-- `pick_physical_device` (main.cpp:118-137): throws when zero devices
are enumerated, else scans them in order and throws when none was
suitable.  `devs` is the enumeration result; the state of the member
`indices` on entry is `ind`. -/
def pick_physical_device (ind : QueueFamilyIndices) (devs : List PhysDevice) :
    Except String (PhysDevice × QueueFamilyIndices) :=
  if devs.length = 0 then
    .error "failed to find GPU with Vulkan support!"
  else
    match pickLoop ind devs with
    | (some d, ind2) => .ok (d, ind2)
    | (none, _) => .error "failed to find a suitable GPU"

/-- Index of the LAST element of `l` satisfying `p`, if any: the value a
scan that overwrites its record at every satisfying element ends with. -/
def lastSat (p : QueueFamily → Bool) : List QueueFamily → Option Nat
  | [] => none
  | f :: rest =>
    match lastSat p rest with
    | some j => some (j + 1)
    | none => if p f then some 0 else none

/-- Left-biased choice on optional indices: a newly recorded index wins
over the value held on entry. -/
def oOr : Option Nat → Option Nat → Option Nat
  | some x, _ => some x
  | none, b => b

/-- Number of families the `find_queue_families` loop consumes, given
which capabilities are already recorded on entry (`hg`, `hp`): it stops
right after the first family at which both have been seen. -/
def scanSteps (hg hp : Bool) : List QueueFamily → Nat
  | [] => 0
  | f :: rest =>
    let hg2 := hg || f.graphics
    let hp2 := hp || f.present
    if hg2 && hp2 then 1 else 1 + scanSteps hg2 hp2 rest

/-- Value of the member `indices` just before candidate `i` is examined,
when the scan of `pick_physical_device` started in state `ind`: the
suitability checks of the earlier candidates have already written into
it. -/
def stateBefore (ind : QueueFamilyIndices) (devs : List PhysDevice) (i : Nat) :
    QueueFamilyIndices :=
  (devs.take i).foldl (fun s d => (is_device_suitable s d).2) ind

/-- Whether candidate `i` passes `is_device_suitable` at the point the
selection loop reaches it (with the member `indices` in the state the
earlier candidates left behind). -/
def suitableAt (ind : QueueFamilyIndices) (devs : List PhysDevice) (i : Nat) :
    Bool :=
  match devs[i]? with
  | some d => (is_device_suitable (stateBefore ind devs i) d).1
  | none => false

/-- `check_validation_layer_support` (main.cpp:557-575).  `layers` is
the list of layer names enumerated by the driver.  The inner loop sets
`layer_found` when `strcmp(layer_name, layer_properties.layerName)` is
NONZERO, i.e. when the two names DIFFER; this polarity is kept here
exactly as in the source. -/
def check_validation_layer_support (layers : List String) : Bool :=
  validation_layers.all fun layer_name =>
    layers.any fun available => layer_name != available

/-- `choose_swap_surface_format` (main.cpp:466-476): first format that
is `VK_FORMAT_B8G8R8A8_SRGB` with `VK_COLOR_SPACE_SRGB_NONLINEAR_KHR`,
else fall back to `available_formats[0]` — an out-of-bounds access on an
empty list, rendered as `none` here. -/
def choose_swap_surface_format (available_formats : List SurfaceFormat) :
    Option SurfaceFormat :=
  match available_formats.find? (fun f =>
      f.format == VK_FORMAT_B8G8R8A8_SRGB &&
      f.colorSpace == VK_COLOR_SPACE_SRGB_NONLINEAR_KHR) with
  | some f => some f
  | none => available_formats[0]?

/-- `std::clamp(v, lo, hi)` on uint32 values. -/
def clampU32 (v lo hi : Nat) : Nat :=
  if v < lo then lo else if hi < v then hi else v

/-- `choose_swap_extent` (main.cpp:488-508).  `fb` is the framebuffer
pixel size `glfwGetFramebufferSize` reports.  Only the WIDTH of
`currentExtent` is compared against the sentinel, as in the source. -/
def choose_swap_extent (capabilities : SurfaceCapabilities) (fb : Extent2D) :
    Extent2D :=
  if capabilities.currentExtent.width ≠ UINT32_MAX then
    capabilities.currentExtent
  else
    { width := clampU32 fb.width capabilities.minImageExtent.width
        capabilities.maxImageExtent.width
      height := clampU32 fb.height capabilities.minImageExtent.height
        capabilities.maxImageExtent.height }

/-- The image-count computation of `create_swap_chain` (main.cpp:187-191):
`uint32_t image_count = minImageCount + 1` (uint32 addition, hence the
`% 2 ^ 32`), clamped down to `maxImageCount` when that is positive and
exceeded. -/
def swap_image_count (capabilities : SurfaceCapabilities) : Nat :=
  let image_count := (capabilities.minImageCount + 1) % 2 ^ 32
  if capabilities.maxImageCount > 0 ∧ image_count > capabilities.maxImageCount
  then capabilities.maxImageCount
  else image_count

/-- One `VkDeviceQueueCreateInfo` as filled by `create_logical_device`;
the priority `1.0f` is an exact constant, kept as the rational 1. -/
structure DeviceQueueCreateInfo where
  queueFamilyIndex : Nat
  queueCount : Nat
  queuePriority : Rat
deriving DecidableEq, Repr

/-- `std::set<uint32_t> unique_queue_families = {graphics, present}`:
the set's ascending iteration order over the (at most two) members. -/
def unique_queue_families (graphics present : Nat) : List Nat :=
  if graphics = present then [graphics]
  else if graphics < present then [graphics, present]
  else [present, graphics]

/-- The queue-request loop of `create_logical_device` (main.cpp:140-153):
one `VkDeviceQueueCreateInfo` per member of `unique_queue_families`, but
`queueFamilyIndex` is set to `indices.graphics_family.value()` on EVERY
iteration (the loop variable `queue_family` is unused in the source). -/
def create_queue_infos (graphics present : Nat) : List DeviceQueueCreateInfo :=
  (unique_queue_families graphics present).map fun _queue_family =>
    { queueFamilyIndex := graphics, queueCount := 1, queuePriority := 1 }

/-! ## Claim C2: validation-layer availability check -/

/-- C2, counterexample/code-bug evidence: with the driver offering
exactly the requested layer `VK_LAYER_KHRONOS_validation`, the check
returns `false` (fatal error) although every requested layer is
available; with the driver offering only an unrelated layer `Foo`, the
check returns `true` although the requested layer is absent.  The
`strcmp` result is used with inverted polarity in the source. -/
theorem c2_layer_check_inverted :
    check_validation_layer_support ["VK_LAYER_KHRONOS_validation"] = false ∧
    "VK_LAYER_KHRONOS_validation" ∈ (["VK_LAYER_KHRONOS_validation"] : List String) ∧
    check_validation_layer_support ["Foo"] = true ∧
    "VK_LAYER_KHRONOS_validation" ∉ (["Foo"] : List String) := by
  refine ⟨rfl, by decide, rfl, by decide⟩

/-! ## Claim C3: queue-family resolution state leak -/

/-- C3, code-bug evidence: `find_queue_families` reads and writes the
member field `indices` without resetting it, so resolving a device B
with NO queue families after a device A with a graphics+present family
returns A's complete indices, while resolving B from an empty result
yields empty indices. -/
theorem c3_resolver_state_leak :
    find_queue_families (find_queue_families ⟨none, none⟩ [⟨true, true⟩]) [] =
      ⟨some 0, some 0⟩ ∧
    find_queue_families ⟨none, none⟩ ([] : List QueueFamily) = ⟨none, none⟩ := by
  exact ⟨rfl, rfl⟩

/-! ## Claim C5: logical-device queue-creation requests -/

/-- C5, code-bug evidence: with graphics family 0 and present family 1,
`create_logical_device` builds two queue-creation requests (one per
distinct family) but sets `queueFamilyIndex` to the graphics family's
index `0` in BOTH, instead of `0` and `1`: the loop body uses
`indices.graphics_family.value()` instead of the loop variable. -/
theorem c5_queue_infos_use_graphics_only :
    create_queue_infos 0 1 =
      [{ queueFamilyIndex := 0, queueCount := 1, queuePriority := 1 },
       { queueFamilyIndex := 0, queueCount := 1, queuePriority := 1 }] ∧
    (create_queue_infos 0 1).map (fun q => q.queueFamilyIndex) = [0, 0] := by
  exact ⟨rfl, rfl⟩

/-! ## Claim C7: swapchain image-count law -/

/-- C7, counterexample: at `minImageCount = 2^32 - 1` (a legal uint32
capabilities value) the uint32 increment wraps, so the requested image
count is `0`, not `minImageCount + 1`. -/
theorem c7_counterexample :
    swap_image_count
      { minImageCount := UINT32_MAX, maxImageCount := 0,
        currentExtent := ⟨0, 0⟩, minImageExtent := ⟨0, 0⟩,
        maxImageExtent := ⟨0, 0⟩ } = 0 ∧
    (0 : Nat) ≠ UINT32_MAX + 1 := by
  constructor
  · decide
  · decide

/-- C7 (amended): whenever `minImageCount + 1` does not overflow uint32,
the requested swapchain image count is `minImageCount + 1`, clamped down
to `maxImageCount` exactly when `maxImageCount > 0` and
`minImageCount + 1 > maxImageCount`; at `minImageCount = 2^32 - 1` the
uint32 increment wraps the requested count to `0`. -/
theorem c7_image_count_law (capabilities : SurfaceCapabilities) :
    (capabilities.minImageCount + 1 < 2 ^ 32 →
      swap_image_count capabilities =
        if capabilities.maxImageCount > 0 ∧
            capabilities.minImageCount + 1 > capabilities.maxImageCount
        then capabilities.maxImageCount
        else capabilities.minImageCount + 1) ∧
    (capabilities.minImageCount = UINT32_MAX → swap_image_count capabilities = 0) := by
  constructor
  · intro h
    unfold swap_image_count
    rw [Nat.mod_eq_of_lt h]
  · intro h
    unfold swap_image_count
    rw [h]
    norm_num [UINT32_MAX]

/-- C7 witness: at `minImageCount = 3`, `maxImageCount = 3` the
non-overflowing branch of `c7_image_count_law` gives requested count 3
(clamped). -/
theorem c7_image_count_law_witness :
    swap_image_count
      { minImageCount := 3, maxImageCount := 3,
        currentExtent := ⟨0, 0⟩, minImageExtent := ⟨0, 0⟩,
        maxImageExtent := ⟨0, 0⟩ } =
      if (3 : Nat) > 0 ∧ 3 + 1 > 3 then 3 else 3 + 1 := by
  have h := (c7_image_count_law
    { minImageCount := 3, maxImageCount := 3,
      currentExtent := ⟨0, 0⟩, minImageExtent := ⟨0, 0⟩,
      maxImageExtent := ⟨0, 0⟩ }).1 (by norm_num)
  exact h

/-! ## Claim C10: present modes gated on format count -/

/-- C10: when the driver reports zero surface formats,
`query_swap_chain_support` leaves `present_modes` empty (both fill-ins
are guarded by `format_count > 0` in the source), whatever present-mode
list the driver would report; consequently `is_device_suitable` rejects
such a device from any starting `indices` state. -/
theorem c10_zero_formats_no_present_modes (d : PhysDevice)
    (h : d.driverFormats = []) :
    (query_swap_chain_support d).present_modes = [] ∧
    ∀ ind : QueueFamilyIndices, (is_device_suitable ind d).1 = false := by
  constructor
  · simp [query_swap_chain_support, h]
  · intro ind
    unfold is_device_suitable
    by_cases hext : check_device_extension_support d
    · simp [hext, query_swap_chain_support, h]
    · simp [hext]

/-- C10 witness: a device reporting zero surface formats but a nonzero
present-mode count gets an empty `present_modes` list and is rejected. -/
theorem c10_zero_formats_no_present_modes_witness :
    (query_swap_chain_support
      { families := [⟨true, true⟩],
        availableExtensions := ["VK_KHR_swapchain"],
        capabilities := ⟨1, 0, ⟨0, 0⟩, ⟨0, 0⟩, ⟨0, 0⟩⟩,
        driverFormats := [], driverPresentModes := [2] }).present_modes = [] ∧
    (is_device_suitable ⟨none, none⟩
      { families := [⟨true, true⟩],
        availableExtensions := ["VK_KHR_swapchain"],
        capabilities := ⟨1, 0, ⟨0, 0⟩, ⟨0, 0⟩, ⟨0, 0⟩⟩,
        driverFormats := [], driverPresentModes := [2] }).1 = false := by
  have h := c10_zero_formats_no_present_modes
    { families := [⟨true, true⟩],
      availableExtensions := ["VK_KHR_swapchain"],
      capabilities := ⟨1, 0, ⟨0, 0⟩, ⟨0, 0⟩, ⟨0, 0⟩⟩,
      driverFormats := [], driverPresentModes := [2] } rfl
  exact ⟨h.1, h.2 ⟨none, none⟩⟩

/-! ## Claim C6: surface-format selection -/

/-- C6: if the formats list contains an 8-bit BGRA / sRGB-nonlinear
entry then `choose_swap_surface_format` returns such an entry of the
list, wherever it sits; if no entry of the list is of that kind and the
list is non-empty, the first entry is returned. -/
theorem c6_surface_format_selection (available_formats : List SurfaceFormat) :
    (∀ f ∈ available_formats,
      f.format = VK_FORMAT_B8G8R8A8_SRGB →
      f.colorSpace = VK_COLOR_SPACE_SRGB_NONLINEAR_KHR →
      ∃ g, choose_swap_surface_format available_formats = some g ∧
        g ∈ available_formats ∧ g.format = VK_FORMAT_B8G8R8A8_SRGB ∧
        g.colorSpace = VK_COLOR_SPACE_SRGB_NONLINEAR_KHR) ∧
    ((∀ f ∈ available_formats,
        ¬(f.format = VK_FORMAT_B8G8R8A8_SRGB ∧
          f.colorSpace = VK_COLOR_SPACE_SRGB_NONLINEAR_KHR)) →
      ∀ h : available_formats ≠ [],
        choose_swap_surface_format available_formats =
          some (available_formats.head h)) := by
  constructor
  · intro f hf h1 h2
    rcases hfind : available_formats.find? (fun f =>
        f.format == VK_FORMAT_B8G8R8A8_SRGB &&
        f.colorSpace == VK_COLOR_SPACE_SRGB_NONLINEAR_KHR) with _ | g
    · exact absurd (by simp [h1, h2] :
        (f.format == VK_FORMAT_B8G8R8A8_SRGB &&
         f.colorSpace == VK_COLOR_SPACE_SRGB_NONLINEAR_KHR) = true)
        (List.find?_eq_none.mp hfind f hf)
    · have hp := List.find?_some hfind
      simp only [Bool.and_eq_true, beq_iff_eq] at hp
      exact ⟨g, by simp [choose_swap_surface_format, hfind],
        List.mem_of_find?_eq_some hfind, hp.1, hp.2⟩
  · intro hnone h
    have hfind : available_formats.find? (fun f =>
        f.format == VK_FORMAT_B8G8R8A8_SRGB &&
        f.colorSpace == VK_COLOR_SPACE_SRGB_NONLINEAR_KHR) = none := by
      rw [List.find?_eq_none]
      intro f hf
      simp only [Bool.and_eq_true, beq_iff_eq]
      exact fun hc => hnone f hf hc
    rw [choose_swap_surface_format, hfind]
    cases available_formats with
    | nil => exact absurd rfl h
    | cons a as => simp

/-- C6 witness: in the list `[(44, 0), (50, 0)]` the preferred entry
`(50, 0)` sits at position 1 and is chosen; in `[(44, 0), (50, 1)]` no
entry is preferred and the first entry `(44, 0)` is chosen. -/
theorem c6_surface_format_selection_witness :
    (∃ g, choose_swap_surface_format [⟨44, 0⟩, ⟨50, 0⟩] = some g ∧
      g ∈ ([⟨44, 0⟩, ⟨50, 0⟩] : List SurfaceFormat) ∧
      g.format = VK_FORMAT_B8G8R8A8_SRGB ∧
      g.colorSpace = VK_COLOR_SPACE_SRGB_NONLINEAR_KHR) ∧
    choose_swap_surface_format [⟨44, 0⟩, ⟨50, 1⟩] =
      some (([⟨44, 0⟩, ⟨50, 1⟩] : List SurfaceFormat).head (by decide)) := by
  constructor
  · exact (c6_surface_format_selection [⟨44, 0⟩, ⟨50, 0⟩]).1 ⟨50, 0⟩
      (by decide) (by decide) (by decide)
  · exact (c6_surface_format_selection [⟨44, 0⟩, ⟨50, 1⟩]).2
      (by decide) (by decide)

/-! ## Claim C8: swap extent selection -/

/-- Bounds of `std::clamp`. -/
theorem clampU32_mem (v lo hi : Nat) (h : lo ≤ hi) :
    lo ≤ clampU32 v lo hi ∧ clampU32 v lo hi ≤ hi := by
  unfold clampU32
  split
  · omega
  · split <;> omega

/-- C8: when `currentExtent.width` is not the uint32-max sentinel the
surface extent is returned verbatim, independently of the framebuffer
size; when it is the sentinel, the result is the framebuffer size
clamped componentwise, and (for sane capability bounds) lies within
`[minImageExtent, maxImageExtent]` componentwise. -/
theorem c8_extent_selection (capabilities : SurfaceCapabilities) (fb : Extent2D) :
    (capabilities.currentExtent.width ≠ UINT32_MAX →
      choose_swap_extent capabilities fb = capabilities.currentExtent ∧
      ∀ fb2, choose_swap_extent capabilities fb2 =
        choose_swap_extent capabilities fb) ∧
    (capabilities.currentExtent.width = UINT32_MAX →
      choose_swap_extent capabilities fb =
        { width := clampU32 fb.width capabilities.minImageExtent.width
            capabilities.maxImageExtent.width,
          height := clampU32 fb.height capabilities.minImageExtent.height
            capabilities.maxImageExtent.height } ∧
      (capabilities.minImageExtent.width ≤ capabilities.maxImageExtent.width →
        capabilities.minImageExtent.width ≤ (choose_swap_extent capabilities fb).width ∧
        (choose_swap_extent capabilities fb).width ≤ capabilities.maxImageExtent.width) ∧
      (capabilities.minImageExtent.height ≤ capabilities.maxImageExtent.height →
        capabilities.minImageExtent.height ≤ (choose_swap_extent capabilities fb).height ∧
        (choose_swap_extent capabilities fb).height ≤ capabilities.maxImageExtent.height)) := by
  constructor
  · intro h
    refine ⟨by simp [choose_swap_extent, h], fun fb2 => by simp [choose_swap_extent, h]⟩
  · intro h
    have he : choose_swap_extent capabilities fb =
        { width := clampU32 fb.width capabilities.minImageExtent.width
            capabilities.maxImageExtent.width,
          height := clampU32 fb.height capabilities.minImageExtent.height
            capabilities.maxImageExtent.height } := by
      simp [choose_swap_extent, h]
    refine ⟨he, fun hw => ?_, fun hh => ?_⟩
    · rw [he]
      exact clampU32_mem fb.width _ _ hw
    · rw [he]
      exact clampU32_mem fb.height _ _ hh

/-- C8 witness: with `currentExtent = (800, 600)` (not the sentinel) the
chosen extent is `(800, 600)` for a framebuffer of `(1024, 768)`; with
the sentinel width, framebuffer `(1024, 768)` and bounds
`(1, 1)`-`(4096, 4096)`, the clamped result stays within the bounds. -/
theorem c8_extent_selection_witness :
    choose_swap_extent ⟨1, 0, ⟨800, 600⟩, ⟨1, 1⟩, ⟨4096, 4096⟩⟩ ⟨1024, 768⟩ =
      ⟨800, 600⟩ ∧
    (1 ≤ (choose_swap_extent ⟨1, 0, ⟨UINT32_MAX, 600⟩, ⟨1, 1⟩, ⟨4096, 4096⟩⟩
        ⟨1024, 768⟩).width ∧
      (choose_swap_extent ⟨1, 0, ⟨UINT32_MAX, 600⟩, ⟨1, 1⟩, ⟨4096, 4096⟩⟩
        ⟨1024, 768⟩).width ≤ 4096) := by
  constructor
  · exact ((c8_extent_selection ⟨1, 0, ⟨800, 600⟩, ⟨1, 1⟩, ⟨4096, 4096⟩⟩
      ⟨1024, 768⟩).1 (by decide)).1
  · exact ((c8_extent_selection ⟨1, 0, ⟨UINT32_MAX, 600⟩, ⟨1, 1⟩, ⟨4096, 4096⟩⟩
      ⟨1024, 768⟩).2 rfl).2.1 (by decide)

/-! ## Claim C9: fallback index of the format choice is in bounds -/

/-- C9: on every non-empty formats list `choose_swap_surface_format`
yields an element of the list (the `[0]` fallback is in bounds), and
every device accepted by `is_device_suitable` — from any `indices`
state — has a non-empty queried formats list, establishing that
precondition for the selected device. -/
theorem c9_format_choice_total_on_suitable :
    (∀ available_formats : List SurfaceFormat, available_formats ≠ [] →
      ∃ f, choose_swap_surface_format available_formats = some f ∧
        f ∈ available_formats) ∧
    (∀ (ind : QueueFamilyIndices) (d : PhysDevice),
      (is_device_suitable ind d).1 = true →
      (query_swap_chain_support d).formats ≠ []) := by
  constructor
  · intro l hne
    rcases hfind : l.find? (fun f =>
        f.format == VK_FORMAT_B8G8R8A8_SRGB &&
        f.colorSpace == VK_COLOR_SPACE_SRGB_NONLINEAR_KHR) with _ | g
    · refine ⟨l.head hne, ?_, List.head_mem hne⟩
      rw [choose_swap_surface_format, hfind]
      cases l with
      | nil => exact absurd rfl hne
      | cons a as => simp
    · exact ⟨g, by simp [choose_swap_surface_format, hfind],
        List.mem_of_find?_eq_some hfind⟩
  · intro ind d h
    by_cases hext : check_device_extension_support d
    · by_cases hfe : (query_swap_chain_support d).formats.isEmpty
      · rw [is_device_suitable] at h
        simp only [hext, if_true, hfe, Bool.true_or, if_true] at h
        exact absurd h (by simp)
      · exact List.isEmpty_eq_false.mp (Bool.not_eq_true _ ▸ hfe)
    · rw [is_device_suitable] at h
      simp [hext] at h

/-- C9 witness: the two-element list `[(44, 0), (50, 1)]` is non-empty
and the choice lands in the list; the concrete suitable device of the
development has a non-empty queried formats list. -/
theorem c9_format_choice_total_on_suitable_witness :
    (∃ f, choose_swap_surface_format [⟨44, 0⟩, ⟨50, 1⟩] = some f ∧
      f ∈ ([⟨44, 0⟩, ⟨50, 1⟩] : List SurfaceFormat)) ∧
    (query_swap_chain_support
      { families := [⟨true, true⟩],
        availableExtensions := ["VK_KHR_swapchain"],
        capabilities := ⟨1, 0, ⟨0, 0⟩, ⟨0, 0⟩, ⟨0, 0⟩⟩,
        driverFormats := [⟨50, 0⟩], driverPresentModes := [2] }).formats ≠ [] := by
  constructor
  · exact c9_format_choice_total_on_suitable.1 [⟨44, 0⟩, ⟨50, 1⟩] (by decide)
  · exact c9_format_choice_total_on_suitable.2 ⟨none, none⟩
      { families := [⟨true, true⟩],
        availableExtensions := ["VK_KHR_swapchain"],
        capabilities := ⟨1, 0, ⟨0, 0⟩, ⟨0, 0⟩, ⟨0, 0⟩⟩,
        driverFormats := [⟨50, 0⟩], driverPresentModes := [2] } (by decide)

/-! ## Claim C4: what the queue-family scan records -/

theorem oOr_some (x : Nat) (b : Option Nat) : oOr (some x) b = some x := rfl

theorem oOr_none (b : Option Nat) : oOr none b = b := rfl

/-- Full characterization of the `find_queue_families` loop: starting at
counter `i` in a not-yet-complete state `⟨g, p⟩`, it consumes
`scanSteps g.isSome p.isSome fams` families, and each component of the
result is the index of the last family in that consumed prefix
advertising the capability (shifted by `i`), falling back to the value
held on entry. -/
theorem fqfLoop_eq (fams : List QueueFamily) : ∀ (i : Nat) (g p : Option Nat),
    (g.isSome && p.isSome) = false →
    fqfLoop ⟨g, p⟩ i fams =
      ⟨oOr ((lastSat (fun f => f.graphics)
          (fams.take (scanSteps g.isSome p.isSome fams))).map (· + i)) g,
       oOr ((lastSat (fun f => f.present)
          (fams.take (scanSteps g.isSome p.isSome fams))).map (· + i)) p⟩ := by
  induction fams with
  | nil =>
    intro i g p _
    simp [fqfLoop, scanSteps, lastSat, oOr_none]
  | cons f rest ih =>
    intro i g p h
    rcases hfg : f.graphics with _ | _ <;> rcases hfp : f.present with _ | _
    · -- no capability on f: state unchanged, loop continues
      simp only [fqfLoop, scanSteps, hfg, hfp, Bool.false_eq_true, if_false,
        Bool.or_false, QueueFamilyIndices.is_complete, h,
        List.take_succ_cons, Nat.add_comm 1]
      rw [ih (i + 1) g p h]
      rw [lastSat, lastSat]
      rcases lastSat (fun f => f.graphics)
          (rest.take (scanSteps g.isSome p.isSome rest)) with _ | j <;>
        rcases lastSat (fun f => f.present)
          (rest.take (scanSteps g.isSome p.isSome rest)) with _ | k <;>
        simp [hfg, hfp, oOr_some, oOr_none, Nat.add_assoc, Nat.add_comm 1 i]
    · -- only present on f
      simp only [fqfLoop, scanSteps, hfg, hfp, Bool.false_eq_true, if_false,
        if_true, Bool.or_false, Bool.or_true, Bool.and_true,
        QueueFamilyIndices.is_complete, Option.isSome_some]
      rcases hg : g with _ | gv
      · -- graphics still missing: recurse
        simp only [Option.isSome_none, Bool.false_eq_true, Bool.false_or,
          if_false, List.take_succ_cons, Nat.add_comm 1]
        rw [ih (i + 1) none (some i) (by simp)]
        simp only [Option.isSome_none, Option.isSome_some]
        rw [lastSat, lastSat]
        rcases lastSat (fun f => f.graphics)
            (rest.take (scanSteps false true rest)) with _ | j <;>
          rcases lastSat (fun f => f.present)
            (rest.take (scanSteps false true rest)) with _ | k <;>
          simp [hfg, hfp, oOr_some, oOr_none, Nat.add_assoc, Nat.add_comm 1 i]
      · -- graphics already recorded: now complete, stop after f
        simp [lastSat, hfg, hfp, oOr_some, oOr_none]
    · -- only graphics on f
      simp only [fqfLoop, scanSteps, hfg, hfp, Bool.false_eq_true, if_false,
        if_true, Bool.or_false, Bool.or_true, Bool.true_and,
        QueueFamilyIndices.is_complete, Option.isSome_some]
      rcases hp : p with _ | pv
      · simp only [Option.isSome_none, Bool.false_eq_true, Bool.false_or,
          Bool.and_false, if_false, List.take_succ_cons, Nat.add_comm 1]
        rw [ih (i + 1) (some i) none (by simp)]
        simp only [Option.isSome_none, Option.isSome_some]
        rw [lastSat, lastSat]
        rcases lastSat (fun f => f.graphics)
            (rest.take (scanSteps true false rest)) with _ | j <;>
          rcases lastSat (fun f => f.present)
            (rest.take (scanSteps true false rest)) with _ | k <;>
          simp [hfg, hfp, oOr_some, oOr_none, Nat.add_assoc, Nat.add_comm 1 i]
      · simp [lastSat, hfg, hfp, oOr_some, oOr_none]
    · -- both capabilities on f: complete immediately
      simp [fqfLoop, scanSteps, hfg, hfp, QueueFamilyIndices.is_complete,
        lastSat, oOr_some, oOr_none]

/-- Meaning of `lastSat`: a `none` result means no element satisfies
`p`; a `some j` result points in bounds at an element satisfying `p`,
with no element after position `j` satisfying `p`. -/
theorem lastSat_spec (p : QueueFamily → Bool) (l : List QueueFamily) :
    (lastSat p l = none → ∀ f ∈ l, p f = false) ∧
    (∀ j, lastSat p l = some j →
      (∃ f, l[j]? = some f ∧ p f = true) ∧
      ∀ j2 f2, j < j2 → l[j2]? = some f2 → p f2 = false) := by
  induction l with
  | nil =>
    exact ⟨fun _ f hf => absurd hf (List.not_mem_nil f),
      fun j hj => by rw [lastSat] at hj; exact absurd hj (by simp)⟩
  | cons f rest ih =>
    constructor
    · intro hnone g hg
      rw [lastSat] at hnone
      rcases hrest : lastSat p rest with _ | j
      · rw [hrest] at hnone
        by_cases hpf : p f = true
        · rw [if_pos hpf] at hnone
          exact absurd hnone (by simp)
        · rcases List.mem_cons.mp hg with h1 | h2
          · rw [h1]
            revert hpf
            cases p f <;> simp
          · exact ih.1 hrest g h2
      · rw [hrest] at hnone
        exact absurd hnone (by simp)
    · intro j hj
      rw [lastSat] at hj
      rcases hrest : lastSat p rest with _ | j0
      · rw [hrest] at hj
        by_cases hpf : p f = true
        · rw [if_pos hpf] at hj
          have hj0 : j = 0 := by
            have := Option.some.inj hj
            omega
          subst hj0
          refine ⟨⟨f, List.getElem?_cons_zero, hpf⟩, ?_⟩
          intro j2 f2 hlt hget
          rcases j2 with _ | j2
          · omega
          · rw [List.getElem?_cons_succ] at hget
            exact ih.1 hrest f2 (List.getElem?_mem hget)
        · rw [if_neg hpf] at hj
          exact absurd hj (by simp)
      · rw [hrest] at hj
        have hj1 : j = j0 + 1 := (Option.some.inj hj).symm
        subst hj1
        obtain ⟨⟨g, hget, hpg⟩, hafter⟩ := ih.2 j0 hrest
        refine ⟨⟨g, by rw [List.getElem?_cons_succ]; exact hget, hpg⟩, ?_⟩
        intro j2 f2 hlt hget2
        rcases j2 with _ | j2
        · omega
        · rw [List.getElem?_cons_succ] at hget2
          exact hafter j2 f2 (by omega) hget2

/-- Meaning of `scanSteps`: the loop never consumes more than the whole
list; at every earlier cut the pair of capabilities had not yet been
seen; and at the stopping point either both have been seen or the list
is exhausted — i.e. the consumed prefix is the shortest one containing
both capabilities, when one exists. -/
theorem scanSteps_spec (l : List QueueFamily) : ∀ hg hp : Bool,
    (hg && hp) = false →
    scanSteps hg hp l ≤ l.length ∧
    (∀ j < scanSteps hg hp l,
      ((hg || (l.take j).any (fun f => f.graphics)) &&
        (hp || (l.take j).any (fun f => f.present))) = false) ∧
    (((hg || (l.take (scanSteps hg hp l)).any (fun f => f.graphics)) &&
        (hp || (l.take (scanSteps hg hp l)).any (fun f => f.present))) = true ∨
      scanSteps hg hp l = l.length) := by
  induction l with
  | nil =>
    intro hg hp h
    exact ⟨Nat.le_refl _, fun j hj => absurd hj (by simp [scanSteps]), Or.inr rfl⟩
  | cons f rest ih =>
    intro hg hp h
    by_cases hc : ((hg || f.graphics) && (hp || f.present)) = true
    · have hs : scanSteps hg hp (f :: rest) = 1 := by
        simp only [scanSteps, hc, if_true]
      refine ⟨by rw [hs]; simp, ?_, Or.inl ?_⟩
      · intro j hj
        have hj0 : j = 0 := by omega
        subst hj0
        simpa using h
      · rw [hs]
        simpa [List.any_cons] using hc
    · have hc2 : ((hg || f.graphics) && (hp || f.present)) = false := by
        revert hc
        cases (hg || f.graphics) && (hp || f.present) <;> simp
      have hs : scanSteps hg hp (f :: rest) =
          1 + scanSteps (hg || f.graphics) (hp || f.present) rest := by
        simp only [scanSteps, hc2, Bool.false_eq_true, if_false]
      obtain ⟨ihlen, ihbefore, ihend⟩ := ih (hg || f.graphics) (hp || f.present) hc2
      refine ⟨?_, ?_, ?_⟩
      · rw [hs]
        simp only [List.length_cons]
        omega
      · intro j hj
        rcases j with _ | j
        · simpa using h
        · rw [hs] at hj
          have := ihbefore j (by omega)
          simpa [List.take_succ_cons, List.any_cons, Bool.or_assoc] using this
      · rcases ihend with hboth | hlen
        · left
          rw [hs, Nat.add_comm 1]
          simpa [List.take_succ_cons, List.any_cons, Bool.or_assoc] using hboth
        · right
          rw [hs, hlen]
          simp [List.length_cons]
          omega

theorem oOr_none_right (o : Option Nat) : oOr o none = o := by
  cases o <;> rfl

theorem option_map_add_zero (o : Option Nat) : o.map (· + 0) = o := by
  cases o <;> simp

/-- C4, counterexample: on the family list `[graphics-only,
graphics+present]` (starting from empty indices) the scan records
graphics family 1, although the FIRST graphics-capable family is at
index 0: each capability hit overwrites the recorded index, so the last
scanned hit wins, not the first. -/
theorem c4_counterexample :
    find_queue_families ⟨none, none⟩ [⟨true, false⟩, ⟨true, true⟩] =
      ⟨some 1, some 1⟩ ∧
    ([⟨true, false⟩, ⟨true, true⟩] : List QueueFamily).findIdx
      (fun f => f.graphics) = 0 := by
  exact ⟨rfl, rfl⟩

/-- C4 (amended): for every queue-family property list, starting from
empty indices, `find_queue_families` records, independently for each
capability, the index of the LAST scanned family advertising it (one
family may satisfy both; a capability absent from the scanned prefix
stays unset), where the scanned prefix is the shortest prefix of the
list containing both capabilities when one exists and the whole list
otherwise — in particular the scan terminates early once both indices
are found. -/
theorem c4_scan_records_last_scanned (fams : List QueueFamily) :
    find_queue_families ⟨none, none⟩ fams =
      ⟨lastSat (fun f => f.graphics) (fams.take (scanSteps false false fams)),
       lastSat (fun f => f.present) (fams.take (scanSteps false false fams))⟩ ∧
    scanSteps false false fams ≤ fams.length ∧
    (∀ j < scanSteps false false fams,
      ¬((fams.take j).any (fun f => f.graphics) = true ∧
        (fams.take j).any (fun f => f.present) = true)) ∧
    (((fams.take (scanSteps false false fams)).any (fun f => f.graphics) = true ∧
        (fams.take (scanSteps false false fams)).any (fun f => f.present) = true) ∨
      scanSteps false false fams = fams.length) := by
  obtain ⟨hlen, hbefore, hend⟩ := scanSteps_spec fams false false rfl
  refine ⟨?_, hlen, ?_, ?_⟩
  · rw [find_queue_families, fqfLoop_eq fams 0 none none (by simp)]
    simp only [Option.isSome_none]
    rw [option_map_add_zero, option_map_add_zero, oOr_none_right, oOr_none_right]
  · intro j hj hand
    have := hbefore j hj
    rw [Bool.false_or, Bool.false_or, hand.1, hand.2] at this
    exact absurd this (by simp)
  · rcases hend with hboth | hl
    · rw [Bool.false_or, Bool.false_or, Bool.and_eq_true] at hboth
      exact Or.inl hboth
    · exact Or.inr hl

/-- C4 witness: on the list `[graphics-only, graphics+present]` the
scanned prefix is the whole two-element list and both components record
the last advertising index; the cut before index 1 does not yet contain
both capabilities. -/
theorem c4_scan_records_last_scanned_witness :
    find_queue_families ⟨none, none⟩ [⟨true, false⟩, ⟨true, true⟩] =
      ⟨lastSat (fun f => f.graphics)
        (([⟨true, false⟩, ⟨true, true⟩] : List QueueFamily).take
          (scanSteps false false [⟨true, false⟩, ⟨true, true⟩])),
       lastSat (fun f => f.present)
        (([⟨true, false⟩, ⟨true, true⟩] : List QueueFamily).take
          (scanSteps false false [⟨true, false⟩, ⟨true, true⟩]))⟩ ∧
    ¬((([⟨true, false⟩, ⟨true, true⟩] : List QueueFamily).take 1).any
        (fun f => f.graphics) = true ∧
      (([⟨true, false⟩, ⟨true, true⟩] : List QueueFamily).take 1).any
        (fun f => f.present) = true) := by
  refine ⟨(c4_scan_records_last_scanned [⟨true, false⟩, ⟨true, true⟩]).1,
    (c4_scan_records_last_scanned [⟨true, false⟩, ⟨true, true⟩]).2.2.1
      1 (by decide)⟩

/-! ## Claim C1: first-suitable device selection -/

theorem suitableAt_zero (ind : QueueFamilyIndices) (d : PhysDevice)
    (rest : List PhysDevice) :
    suitableAt ind (d :: rest) 0 = (is_device_suitable ind d).1 := by
  simp [suitableAt, stateBefore]

theorem suitableAt_succ (ind : QueueFamilyIndices) (d : PhysDevice)
    (rest : List PhysDevice) (i : Nat) :
    suitableAt ind (d :: rest) (i + 1) =
      suitableAt (is_device_suitable ind d).2 rest i := by
  simp [suitableAt, stateBefore, List.take_succ_cons, List.getElem?_cons_succ]

/-- The selection loop returns the first candidate that passes the
(state-threaded) suitability check, and returns `none` exactly when no
candidate passes it. -/
theorem pickLoop_spec (devs : List PhysDevice) : ∀ ind : QueueFamilyIndices,
    (∀ d ind2, pickLoop ind devs = (some d, ind2) →
      ∃ i, devs[i]? = some d ∧ suitableAt ind devs i = true ∧
        ∀ j < i, suitableAt ind devs j = false) ∧
    ((pickLoop ind devs).1 = none → ∀ i, suitableAt ind devs i = false) ∧
    ((∃ i, suitableAt ind devs i = true) →
      ∃ d ind2, pickLoop ind devs = (some d, ind2)) := by
  induction devs with
  | nil =>
    intro ind
    refine ⟨?_, ?_, ?_⟩
    · intro d ind2 h
      rw [pickLoop] at h
      exact absurd h (by simp)
    · intro _ i
      rw [suitableAt]
      simp
    · rintro ⟨i, hi⟩
      rw [suitableAt] at hi
      simp at hi
  | cons d rest ih =>
    intro ind
    by_cases hsuit : (is_device_suitable ind d).1 = true
    · have hp : pickLoop ind (d :: rest) = (some d, (is_device_suitable ind d).2) := by
        simp [pickLoop, hsuit]
      refine ⟨?_, ?_, ?_⟩
      · intro d2 ind2 h
        rw [hp] at h
        have h1 : some d = some d2 := congrArg Prod.fst h
        refine ⟨0, ?_, ?_, fun j hj => absurd hj (by omega)⟩
        · rw [List.getElem?_cons_zero]
          exact h1
        · rw [suitableAt_zero]
          exact hsuit
      · intro h
        rw [hp] at h
        simp at h
      · intro _
        exact ⟨d, (is_device_suitable ind d).2, hp⟩
    · have hsf : (is_device_suitable ind d).1 = false := by
        revert hsuit
        cases (is_device_suitable ind d).1 <;> simp
      have hp : pickLoop ind (d :: rest) = pickLoop (is_device_suitable ind d).2 rest := by
        simp [pickLoop, hsf]
      obtain ⟨ih1, ih2, ih3⟩ := ih (is_device_suitable ind d).2
      refine ⟨?_, ?_, ?_⟩
      · intro d2 ind2 h
        rw [hp] at h
        obtain ⟨i, hg, hs, hmin⟩ := ih1 d2 ind2 h
        refine ⟨i + 1, by rw [List.getElem?_cons_succ]; exact hg,
          by rw [suitableAt_succ]; exact hs, ?_⟩
        intro j hj
        rcases j with _ | j
        · rw [suitableAt_zero]
          exact hsf
        · rw [suitableAt_succ]
          exact hmin j (by omega)
      · intro h i
        rw [hp] at h
        rcases i with _ | i
        · rw [suitableAt_zero]
          exact hsf
        · rw [suitableAt_succ]
          exact ih2 h i
      · rintro ⟨i, hi⟩
        rcases i with _ | i
        · rw [suitableAt_zero] at hi
          rw [hsf] at hi
          exact absurd hi (by simp)
        · rw [suitableAt_succ] at hi
          obtain ⟨d2, ind2, h⟩ := ih3 ⟨i, hi⟩
          exact ⟨d2, ind2, by rw [hp]; exact h⟩

/-- C1: `pick_physical_device` fails fatally (before evaluating any
candidate) when zero devices are enumerated; a returned device is the
candidate at the first position passing `is_device_suitable` (evaluated
in enumeration order, with the member `indices` threaded through the
checks as the source does), every earlier position failing it; some
position passing implies a device is returned; and it fails fatally
when every position fails — i.e. a fatal error is raised iff no
candidate satisfies the suitability predicate. -/
theorem c1_pick_first_suitable (ind : QueueFamilyIndices)
    (devs : List PhysDevice) :
    (devs = [] →
      pick_physical_device ind devs =
        .error "failed to find GPU with Vulkan support!") ∧
    (∀ d ind2, pick_physical_device ind devs = .ok (d, ind2) →
      ∃ i, devs[i]? = some d ∧ suitableAt ind devs i = true ∧
        ∀ j < i, suitableAt ind devs j = false) ∧
    ((∃ i, suitableAt ind devs i = true) →
      ∃ d ind2, pick_physical_device ind devs = .ok (d, ind2)) ∧
    (devs ≠ [] → (∀ i, suitableAt ind devs i = false) →
      pick_physical_device ind devs = .error "failed to find a suitable GPU") := by
  obtain ⟨hs1, hs2, hs3⟩ := pickLoop_spec devs ind
  refine ⟨?_, ?_, ?_, ?_⟩
  · intro h
    subst h
    rfl
  · intro d ind2 h
    rw [pick_physical_device] at h
    by_cases hlen : devs.length = 0
    · rw [if_pos hlen] at h
      exact absurd h (by simp)
    · rw [if_neg hlen] at h
      rcases hpl : pickLoop ind devs with ⟨od, ind3⟩
      rcases od with _ | d3
      · rw [hpl] at h
        exact absurd h (by simp)
      · rw [hpl] at h
        obtain ⟨hd, hi⟩ := Except.ok.inj h ▸ (rfl : (d3, ind3) = (d3, ind3))
        have hde : d3 = d ∧ ind3 = ind2 := by
          have := Except.ok.inj h
          exact ⟨congrArg Prod.fst this, congrArg Prod.snd this⟩
        obtain ⟨i, hg, hsuit, hmin⟩ := hs1 d3 ind3 hpl
        exact ⟨i, hde.1 ▸ hg, hsuit, hmin⟩
  · intro hex
    obtain ⟨d, ind2, hpl⟩ := hs3 hex
    have hne : devs.length ≠ 0 := by
      obtain ⟨i, hi⟩ := hex
      intro h0
      rw [List.length_eq_zero] at h0
      subst h0
      rw [suitableAt] at hi
      simp at hi
    refine ⟨d, ind2, ?_⟩
    rw [pick_physical_device, if_neg hne, hpl]
  · intro hne hall
    have hlen : devs.length ≠ 0 := fun h0 => hne (List.length_eq_zero.mp h0)
    rw [pick_physical_device, if_neg hlen]
    rcases hpl : pickLoop ind devs with ⟨od, ind3⟩
    rcases od with _ | d3
    · rfl
    · obtain ⟨i, _, hsuit, _⟩ := hs1 d3 ind3 hpl
      rw [hall i] at hsuit
      exact absurd hsuit (by simp)

/-- C1 witness: zero devices give the no-GPU fatal error; with an
unsuitable first device (missing the swapchain extension) followed by a
suitable one, a device is returned; with only the unsuitable device,
the no-suitable-GPU fatal error is raised. -/
theorem c1_pick_first_suitable_witness :
    pick_physical_device ⟨none, none⟩ ([] : List PhysDevice) =
      .error "failed to find GPU with Vulkan support!" ∧
    (∃ d ind2, pick_physical_device ⟨none, none⟩
        [{ families := [⟨true, true⟩], availableExtensions := [],
           capabilities := ⟨1, 0, ⟨0, 0⟩, ⟨0, 0⟩, ⟨0, 0⟩⟩,
           driverFormats := [⟨50, 0⟩], driverPresentModes := [2] },
         { families := [⟨true, true⟩],
           availableExtensions := ["VK_KHR_swapchain"],
           capabilities := ⟨1, 0, ⟨0, 0⟩, ⟨0, 0⟩, ⟨0, 0⟩⟩,
           driverFormats := [⟨50, 0⟩], driverPresentModes := [2] }] =
        .ok (d, ind2)) ∧
    pick_physical_device ⟨none, none⟩
        [{ families := [⟨true, true⟩], availableExtensions := [],
           capabilities := ⟨1, 0, ⟨0, 0⟩, ⟨0, 0⟩, ⟨0, 0⟩⟩,
           driverFormats := [⟨50, 0⟩], driverPresentModes := [2] }] =
      .error "failed to find a suitable GPU" := by
  refine ⟨(c1_pick_first_suitable ⟨none, none⟩ []).1 rfl,
    (c1_pick_first_suitable ⟨none, none⟩ _).2.2.1 ⟨1, by decide⟩,
    (c1_pick_first_suitable ⟨none, none⟩ _).2.2.2 (by decide) ?_⟩
  intro i
  rcases i with _ | i
  · decide
  · rfl

end VulkanTemplate
